import Mathlib

/-!
Verification of the grid/collect-and-merge game core of this repository.

The definitions below are a shallow embedding of the gameplay-logic classes
found in the source (GameStateManager, BoardState, TokenManager, MapManager
and the configuration constants). JavaScript numbers holding integers are
modelled as Nat/Int, JavaScript numbers holding values in [0,1) are modelled
as exact rationals, JavaScript strings are modelled as Lean strings (lists of
characters), and the JS Map/Set containers are modelled as association lists
respecting the get/set/delete/add semantics of the source.
-/

namespace D3Game

/- ===================================================================
   Cell keys: MapManager.getKey / MapManager.parseKey
   Source: getKey(cell) returns the template string "i:j"; parseKey
   splits on ":" and converts both pieces with Number(...).
   =================================================================== -/

/-- A grid cell: the pair of integer grid coordinates (i, j).
Source: interface GridCell with fields i and j. -/
structure GridCell where
  i : ℤ
  j : ℤ
deriving DecidableEq, Repr

/-- Fuelled digit extraction: the usual most-significant-first decimal
rendering, structurally recursive on the fuel so that it evaluates by
kernel reduction. -/
def natReprCore : ℕ → ℕ → List Char
  | 0, _ => []
  | fuel + 1, n =>
    if n < 10 then [Nat.digitChar n]
    else natReprCore fuel (n / 10) ++ [Nat.digitChar (n % 10)]

/-- Decimal rendering of a natural number, as JS template interpolation
produces for a nonnegative integer number. -/
def natRepr (n : ℕ) : List Char := natReprCore (n + 1) n

theorem natReprCore_eq_digits :
    ∀ fuel n, 0 < n → n < 10 ^ fuel →
      natReprCore fuel n = ((Nat.digits 10 n).map Nat.digitChar).reverse := by
  intro fuel
  induction fuel with
  | zero =>
    intro n hpos hlt
    simp at hlt
    omega
  | succ fuel ih =>
    intro n hpos hlt
    by_cases h : n < 10
    · rw [natReprCore, if_pos h]
      rw [Nat.digits_def' (by norm_num : (1:ℕ) < 10) hpos,
        Nat.div_eq_of_lt h, Nat.digits_zero, Nat.mod_eq_of_lt h]
      rfl
    · rw [natReprCore, if_neg h]
      have hd10 : 0 < n / 10 := Nat.div_pos (le_of_not_lt h) (by norm_num)
      have hdlt : n / 10 < 10 ^ fuel := by
        rw [Nat.div_lt_iff_lt_mul (by norm_num : (0:ℕ) < 10)]
        calc n < 10 ^ (fuel + 1) := hlt
        _ = 10 ^ fuel * 10 := by rw [pow_succ]
      rw [ih (n / 10) hd10 hdlt,
        Nat.digits_def' (by norm_num : (1:ℕ) < 10) hpos]
      simp

theorem natRepr_eq (n : ℕ) :
    natRepr n =
      if n = 0 then ['0'] else ((Nat.digits 10 n).map Nat.digitChar).reverse := by
  by_cases h : n = 0
  · subst h; rfl
  · rw [if_neg h]
    have hpos : 0 < n := Nat.pos_of_ne_zero h
    have hlt : n < 10 ^ (n + 1) := by
      calc n < 10 ^ n := Nat.lt_pow_self (by norm_num) n
      _ ≤ 10 ^ (n + 1) := Nat.pow_le_pow_right (by norm_num) (Nat.le_succ n)
    exact natReprCore_eq_digits (n + 1) n hpos hlt

/-- Decimal rendering of an integer, as JS template interpolation produces
for an integer number: a minus sign followed by the digits when negative. -/
def intRepr : ℤ → List Char
  | Int.ofNat n => natRepr n
  | Int.negSucc m => '-' :: natRepr (m + 1)

/-- MapManager.getKey: the template string with the two coordinates
separated by a colon. -/
def getKey (cell : GridCell) : String :=
  String.mk (intRepr cell.i ++ ':' :: intRepr cell.j)

/-- Model of the JS String.split method for a one-character separator:
the list of maximal separator-free pieces. -/
def splitOnChar (sep : Char) : List Char → List (List Char)
  | [] => [[]]
  | c :: rest =>
    if c = sep then [] :: splitOnChar sep rest
    else
      match splitOnChar sep rest with
      | [] => [[c]]
      | piece :: pieces => (c :: piece) :: pieces

/-- The digit-accumulating fold underlying the model of Number(...) on a
digit string. -/
def parseDigits (cs : List Char) : ℕ :=
  cs.foldl (fun acc c => 10 * acc + (c.toNat - 48)) 0

/-- Model of Number(...) restricted to unsigned decimal digit strings;
none models the NaN outcome on any other input. -/
def parseNatChars (cs : List Char) : Option ℕ :=
  if cs ≠ [] ∧ cs.all Char.isDigit then some (parseDigits cs) else none

/-- Model of Number(...) on an optionally minus-signed decimal integer
string; none models the NaN outcome. -/
def parseIntChars : List Char → Option ℤ
  | [] => none
  | c :: rest =>
    if c = '-' then
      match parseNatChars rest with
      | some n => some (-(n : ℤ))
      | none => none
    else
      match parseNatChars (c :: rest) with
      | some n => some ((n : ℤ))
      | none => none

/-- MapManager.parseKey: split the key on ":" and convert the first two
pieces with Number(...); none models a NaN coordinate in the result. -/
def parseKeyChars (cs : List Char) : Option GridCell :=
  match splitOnChar ':' cs with
  | iStr :: jStr :: _ =>
    match parseIntChars iStr, parseIntChars jStr with
    | some i, some j => some ⟨i, j⟩
    | _, _ => none
  | _ => none

/-- MapManager.parseKey on a Lean string. -/
def parseKey (s : String) : Option GridCell :=
  parseKeyChars s.data

/- Helper lemmas for the round trip. -/

theorem splitOnChar_of_not_mem {sep : Char} {b : List Char} (hb : sep ∉ b) :
    splitOnChar sep b = [b] := by
  induction b with
  | nil => rfl
  | cons c rest ih =>
    have hc : c ≠ sep := fun h => hb (h ▸ List.mem_cons_self c rest)
    have hrest : sep ∉ rest := fun h => hb (List.mem_cons_of_mem _ h)
    simp only [splitOnChar, if_neg hc, ih hrest]

theorem splitOnChar_append {sep : Char} {a : List Char} (b : List Char)
    (ha : sep ∉ a) :
    splitOnChar sep (a ++ sep :: b) = a :: splitOnChar sep b := by
  induction a with
  | nil => simp [splitOnChar]
  | cons c rest ih =>
    have hc : c ≠ sep := fun h => ha (h ▸ List.mem_cons_self c rest)
    have hrest : sep ∉ rest := fun h => ha (List.mem_cons_of_mem _ h)
    show splitOnChar sep (c :: (rest ++ sep :: b)) = (c :: rest) :: splitOnChar sep b
    rw [splitOnChar, if_neg hc, ih hrest]

theorem digitChar_isDigit {d : ℕ} (h : d < 10) :
    (Nat.digitChar d).isDigit = true := by
  interval_cases d <;> decide

theorem digitChar_toNat_sub {d : ℕ} (h : d < 10) :
    (Nat.digitChar d).toNat - 48 = d := by
  interval_cases d <;> decide

theorem digitChar_ne_colon {d : ℕ} (h : d < 10) : Nat.digitChar d ≠ ':' := by
  interval_cases d <;> decide

theorem natRepr_ne_nil (n : ℕ) : natRepr n ≠ [] := by
  rw [natRepr_eq]
  split
  · simp
  · next h =>
    have : Nat.digits 10 n ≠ [] := Nat.digits_ne_nil_iff_ne_zero.mpr h
    simp [this]

theorem mem_natRepr_isDigit {n : ℕ} {c : Char} (hc : c ∈ natRepr n) :
    c.isDigit = true := by
  rw [natRepr_eq] at hc
  split at hc
  · rcases List.mem_singleton.mp hc with rfl
    decide
  · rcases List.mem_reverse.mp hc with hmem
    rcases List.mem_map.mp hmem with ⟨d, hd, rfl⟩
    exact digitChar_isDigit (Nat.digits_lt_base (by norm_num) hd)

theorem colon_not_mem_natRepr (n : ℕ) : ':' ∉ natRepr n := by
  intro h
  have := mem_natRepr_isDigit h
  simp at this

theorem colon_not_mem_intRepr (i : ℤ) : ':' ∉ intRepr i := by
  cases i with
  | ofNat n => exact colon_not_mem_natRepr n
  | negSucc m =>
    intro h
    rcases List.mem_cons.mp h with h | h
    · exact absurd h (by decide)
    · exact colon_not_mem_natRepr _ h

theorem foldl_digits_reverse (ds : List ℕ) (hds : ∀ d ∈ ds, d < 10) (acc : ℕ) :
    List.foldl (fun acc c => 10 * acc + (c.toNat - 48)) acc
      ((ds.map Nat.digitChar).reverse) =
      acc * 10 ^ ds.length + Nat.ofDigits 10 ds := by
  induction ds generalizing acc with
  | nil => simp [Nat.ofDigits]
  | cons d ds ih =>
    have hd : d < 10 := hds d (List.mem_cons_self d ds)
    have hds' : ∀ x ∈ ds, x < 10 := fun x hx => hds x (List.mem_cons_of_mem _ hx)
    simp only [List.map_cons, List.reverse_cons, List.foldl_append,
      List.foldl_cons, List.foldl_nil, ih hds']
    rw [digitChar_toNat_sub hd, Nat.ofDigits_cons, List.length_cons]
    ring

theorem parseNatChars_natRepr (n : ℕ) : parseNatChars (natRepr n) = some n := by
  by_cases h : n = 0
  · subst h; decide
  · have hne : natRepr n ≠ [] := natRepr_ne_nil n
    have hall : (natRepr n).all Char.isDigit = true := by
      rw [List.all_eq_true]
      exact fun c hc => mem_natRepr_isDigit hc
    unfold parseNatChars
    rw [if_pos ⟨hne, hall⟩]
    congr 1
    unfold parseDigits
    rw [natRepr_eq, if_neg h]
    rw [foldl_digits_reverse _ (fun d hd => Nat.digits_lt_base (by norm_num) hd) 0]
    simp [Nat.ofDigits_digits]

theorem not_isDigit_minus : ('-' : Char).isDigit = false := by decide

theorem parseIntChars_intRepr (i : ℤ) : parseIntChars (intRepr i) = some i := by
  cases i with
  | ofNat n =>
    show parseIntChars (natRepr n) = some (Int.ofNat n)
    obtain ⟨c, cs, hcc⟩ : ∃ c cs, natRepr n = c :: cs := by
      cases hn : natRepr n with
      | nil => exact absurd hn (natRepr_ne_nil n)
      | cons c cs => exact ⟨c, cs, rfl⟩
    have hcd : c.isDigit = true := mem_natRepr_isDigit (hcc ▸ List.mem_cons_self c cs)
    have hcm : c ≠ '-' := by
      intro h
      rw [h] at hcd
      exact absurd hcd (by decide)
    rw [hcc]
    simp only [parseIntChars, if_neg hcm, ← hcc, parseNatChars_natRepr]
    rfl
  | negSucc m =>
    show parseIntChars ('-' :: natRepr (m + 1)) = some (Int.negSucc m)
    simp only [parseIntChars, if_pos, parseNatChars_natRepr]
    simp [Int.negSucc_eq]

/-- C9: For every grid cell (i, j) with integer coordinates, parsing the
serialized key is the exact inverse of serialization: parseKey applied to
getKey of the cell recovers exactly the cell (the some result models the
non-NaN outcome of the TS parseKey). -/
theorem parseKey_getKey (cell : GridCell) : parseKey (getKey cell) = some cell := by
  show parseKeyChars (intRepr cell.i ++ ':' :: intRepr cell.j) = some cell
  unfold parseKeyChars
  rw [splitOnChar_append _ (colon_not_mem_intRepr cell.i),
    splitOnChar_of_not_mem (colon_not_mem_intRepr cell.j)]
  simp [parseIntChars_intRepr]

/- ===================================================================
   Rarity model: the TokenManager constructor builds inverse-power
   weights, a cumulative distribution, and spawn multipliers; the
   trySpawnCell loop picks the smallest exponent e with vRand below the
   cumulative value at e. The JS number arithmetic is embedded as exact
   rational arithmetic.
   =================================================================== -/

/-- One entry of the weights array: 1 / 2^e. -/
def expWeight (e : ℕ) : ℚ := 1 / 2 ^ e

/-- expTotal: the reduce-sum of the weights for e in [0, maxExp]. -/
def expTotal (maxExp : ℕ) : ℚ := ∑ e ∈ Finset.range (maxExp + 1), expWeight e

/-- expDistribution: the accumulated value pushed at index e, that is the
partial sum of the normalized weights up to e. -/
def expDistribution (maxExp : ℕ) (e : ℕ) : ℚ :=
  ∑ k ∈ Finset.range (e + 1), expWeight k / expTotal maxExp

/-- expSpawnMultiplier: each weight divided by the weight at index 0. -/
def expSpawnMultiplier (e : ℕ) : ℚ := expWeight e / expWeight 0

/-- The search for the first index in [start, start+n) satisfying p,
modelling the for-loop with break in trySpawnCell. -/
def findFirst (p : ℕ → Bool) : ℕ → ℕ → Option ℕ
  | 0, _ => none
  | n + 1, start => if p start then some start else findFirst p n (start + 1)

/-- The exponent-selection loop of trySpawnCell: exp starts at 0 and the
loop over e in [0, maxExp] breaks at the first e with vRand below the
cumulative distribution entry. -/
def expFor (maxExp : ℕ) (u : ℚ) : ℕ :=
  (findFirst (fun e => decide (u < expDistribution maxExp e)) (maxExp + 1) 0).getD 0

theorem expTotal_pos (maxExp : ℕ) : 0 < expTotal maxExp := by
  unfold expTotal
  apply Finset.sum_pos
  · intro k _
    unfold expWeight
    positivity
  · exact Finset.nonempty_range_succ

theorem expDistribution_last (maxExp : ℕ) : expDistribution maxExp maxExp = 1 := by
  unfold expDistribution
  rw [← Finset.sum_div]
  exact div_self (ne_of_gt (expTotal_pos maxExp))

theorem findFirst_eq_some {p : ℕ → Bool} :
    ∀ {n start e : ℕ}, findFirst p n start = some e →
      p e = true ∧ start ≤ e ∧ e < start + n := by
  intro n
  induction n with
  | zero => intro start e h; exact absurd h (by simp [findFirst])
  | succ n ih =>
    intro start e h
    unfold findFirst at h
    split at h
    · next hp =>
      cases h
      exact ⟨hp, le_refl _, by omega⟩
    · obtain ⟨h1, h2, h3⟩ := ih h
      exact ⟨h1, by omega, by omega⟩

theorem findFirst_min {p : ℕ → Bool} :
    ∀ {n start e : ℕ}, findFirst p n start = some e →
      ∀ k, start ≤ k → k < e → p k = false := by
  intro n
  induction n with
  | zero => intro start e h; exact absurd h (by simp [findFirst])
  | succ n ih =>
    intro start e h k hk1 hk2
    unfold findFirst at h
    split at h
    · cases h
      exact absurd hk2 (by omega)
    · next hp =>
      rcases Nat.eq_or_lt_of_le hk1 with rfl | hlt
      · exact Bool.not_eq_true _ ▸ (by simpa using hp)
      · exact ih h k hlt hk2

theorem findFirst_isSome {p : ℕ → Bool} :
    ∀ {n start e : ℕ}, start ≤ e → e < start + n → p e = true →
      (findFirst p n start).isSome = true := by
  intro n
  induction n with
  | zero => intro start e h1 h2; omega
  | succ n ih =>
    intro start e h1 h2 hp
    unfold findFirst
    split
    · rfl
    · next hs =>
      rcases Nat.eq_or_lt_of_le h1 with rfl | hlt
      · exact absurd hp (by simpa using hs)
      · exact ih hlt (by omega) hp

/-- C8: for every u in [0,1), the exponent selected from the cumulative
rarity distribution (smallest e with u below the cumulative entry at e) is
defined (the search succeeds) and lies in [0, maxExp]; the selection is
monotone non-decreasing in u; and the cumulative distribution built from
the weights 1/2^e reaches exactly 1 at index maxExp. -/
theorem expFor_spec (maxExp : ℕ) (u v : ℚ) (h0 : 0 ≤ u) (huv : u ≤ v)
    (h1 : v < 1) :
    (findFirst (fun e => decide (u < expDistribution maxExp e))
        (maxExp + 1) 0).isSome = true
    ∧ expFor maxExp u ≤ maxExp
    ∧ expFor maxExp v ≤ maxExp
    ∧ expFor maxExp u ≤ expFor maxExp v
    ∧ expDistribution maxExp maxExp = 1 := by
  have hu1 : u < 1 := lt_of_le_of_lt huv h1
  have hlast := expDistribution_last maxExp
  have hpu : decide (u < expDistribution maxExp maxExp) = true := by
    simp only [decide_eq_true_eq]
    rw [hlast]; exact hu1
  have hpv : decide (v < expDistribution maxExp maxExp) = true := by
    simp only [decide_eq_true_eq]
    rw [hlast]; exact h1
  have hbound : maxExp < 0 + (maxExp + 1) := by omega
  have hsu := @findFirst_isSome (fun e => decide (u < expDistribution maxExp e))
    (maxExp + 1) 0 maxExp (Nat.zero_le maxExp) hbound hpu
  have hsv := @findFirst_isSome (fun e => decide (v < expDistribution maxExp e))
    (maxExp + 1) 0 maxExp (Nat.zero_le maxExp) hbound hpv
  obtain ⟨a, ha⟩ := Option.isSome_iff_exists.mp hsu
  obtain ⟨b, hb⟩ := Option.isSome_iff_exists.mp hsv
  obtain ⟨hpa, -, ha2⟩ := findFirst_eq_some ha
  obtain ⟨hpb, -, hb2⟩ := findFirst_eq_some hb
  have heu : expFor maxExp u = a := by rw [expFor, ha]; rfl
  have hev : expFor maxExp v = b := by rw [expFor, hb]; rfl
  refine ⟨hsu, ?_, ?_, ?_, hlast⟩
  · rw [heu]; omega
  · rw [hev]; omega
  · rw [heu, hev]
    by_contra hab
    push_neg at hab
    have hbfalse := findFirst_min ha b (Nat.zero_le b) hab
    have : u < expDistribution maxExp b := lt_of_le_of_lt huv
      (by simpa using hpb)
    simp [this] at hbfalse

/- ===================================================================
   GameStateManager: held token, collected keys, win flag.
   =================================================================== -/

/-- A value token: the cell key it came from and its exponent.
Source: interface Token with fields key and exp. -/
structure Token where
  key : String
  exp : ℕ
deriving DecidableEq, Repr

/-- The session state held by GameStateManager: heldToken, collectedSet
(a JS Set modelled as a duplicate-free insertion list) and hasWon. -/
structure GameState where
  heldToken : Option Token
  collectedSet : List String
  hasWon : Bool
deriving DecidableEq, Repr

/-- The field initializers of GameStateManager: no held token, empty
collected set, win flag false. -/
def initialGameState : GameState := ⟨none, [], false⟩

/-- Model of JS Set.add: append the key when it is not already present. -/
def addKey (l : List String) (k : String) : List String :=
  if k ∈ l then l else l ++ [k]

/-- GameStateManager.checkWinCondition: when a token is held and 2 to its
exponent equals winValue, set hasWon to true; otherwise change nothing. -/
def checkWinCondition (winValue : ℕ) (s : GameState) : GameState :=
  match s.heldToken with
  | some t => if 2 ^ t.exp = winValue then { s with hasWon := true } else s
  | none => s

/-- GameStateManager.collectToken: set heldToken to the token, add its key
to the collected set, then check the win condition. -/
def collectToken (winValue : ℕ) (t : Token) (s : GameState) : GameState :=
  checkWinCondition winValue
    { s with heldToken := some t, collectedSet := addKey s.collectedSet t.key }

/-- GameStateManager.upgradeHeldToken: when a token is held, increment its
exponent and check the win condition; when none is held, do nothing. -/
def upgradeHeldToken (winValue : ℕ) (s : GameState) : GameState :=
  match s.heldToken with
  | some t =>
    checkWinCondition winValue { s with heldToken := some { t with exp := t.exp + 1 } }
  | none => s

/-- GameStateManager.clearHeldToken: drop the held token. -/
def clearHeldToken (s : GameState) : GameState := { s with heldToken := none }

/- ===================================================================
   BoardState (the memento / overlay store) and the token layer cache.
   =================================================================== -/

/-- One overlay record as stored by BoardState: the optional-field object
with hasToken and exp, mirroring the duck-typed TS literal. -/
structure Memento where
  hasToken : Option Bool
  exp : Option ℕ
deriving DecidableEq, Repr

/-- The record written by the collect branch: hasToken false, no exp. -/
def suppressedMemento : Memento := ⟨some false, none⟩

/-- The record written by the merge branch: hasToken true with the new
exponent. -/
def presentMemento (e : ℕ) : Memento := ⟨some true, some e⟩

/-- Model of JS Map.get on an association list. -/
def getEntry {α : Type} : List (String × α) → String → Option α
  | [], _ => none
  | (k', v) :: rest, k => if k' = k then some v else getEntry rest k

/-- Model of JS Map.set on an association list: replace in place or
append. -/
def setEntry {α : Type} : List (String × α) → String → α → List (String × α)
  | [], k, v => [(k, v)]
  | (k', v') :: rest, k, v =>
    if k' = k then (k, v) :: rest else (k', v') :: setEntry rest k v

/-- Model of JS Map.delete on an association list. -/
def delEntry {α : Type} : List (String × α) → String → List (String × α)
  | [], _ => []
  | (k', v') :: rest, k => if k' = k then rest else (k', v') :: delEntry rest k

/-- The combined mutable state the gameplay logic touches: the BoardState
overlay map, the tokensMap cache of TokenManager (only the exponent part
is game-logic; the Leaflet layer is rendering), and the GameStateManager
state. -/
structure World where
  board : List (String × Memento)
  tokens : List (String × ℕ)
  game : GameState
deriving DecidableEq, Repr

/-- The state at first load with no persisted data, and after resetGame
(gameState.reset, boardState.reset, tokenManager.clearAll). -/
def initialWorld : World := ⟨[], [], initialGameState⟩

/-- WIN_VALUE as wired in the source: 2 to the configured maximum
exponent. -/
def winValue (maxExp : ℕ) : ℕ := 2 ^ maxExp

/-- MapManager.distanceToPlayer reduced to cells: the Manhattan distance
between the integer cell of the player and the target cell. -/
def gridDistance (p c : GridCell) : ℕ :=
  (c.i - p.i).natAbs + (c.j - p.j).natAbs

/-- The per-click outcome tags of the interaction handler. -/
inductive Outcome where
  | gameWonBlocked
  | tooFar
  | collect
  | mergeSuccess
  | mergeRejectMaxValue
  | mergeRejectDifferentValue
deriving DecidableEq, Repr

/-- The click handler installed by TokenManager.trySpawnCell, for a cell
whose rectangle displays exponent exp: win gate, then proximity gate, then
merge (held token of equal exponent below the maximum: write the
incremented exponent to the tokensMap and the overlay, release the held
token), merge rejections, or collect (suppress the cell in the overlay,
drop it from the tokensMap, collect the token). -/
def clickCell (maxExp proximityRadius : ℕ) (w : World) (playerCell cell : GridCell)
    (exp : ℕ) : Outcome × World :=
  if w.game.hasWon then (Outcome.gameWonBlocked, w)
  else if gridDistance playerCell cell ≤ proximityRadius then
    match w.game.heldToken with
    | some t =>
      if t.exp = exp then
        if exp < maxExp then
          (Outcome.mergeSuccess,
            { board := setEntry w.board (getKey cell) (presentMemento (exp + 1)),
              tokens := setEntry w.tokens (getKey cell) (exp + 1),
              game := clearHeldToken w.game })
        else (Outcome.mergeRejectMaxValue, w)
      else (Outcome.mergeRejectDifferentValue, w)
    | none =>
      (Outcome.collect,
        { board := setEntry w.board (getKey cell) suppressedMemento,
          tokens := delEntry w.tokens (getKey cell),
          game := collectToken (winValue maxExp) ⟨getKey cell, exp⟩ w.game })
  else (Outcome.tooFar, w)

/-- The read path of TokenManager.trySpawnCell: what token content the
cell shows. In order: collected cells show nothing; a cached tokensMap
entry wins; then the overlay memento (hasToken false shows nothing, else
its exponent with default 0); otherwise the deterministic generator draws
the value and spawn randoms. -/
def resolveCell (maxExp : ℕ) (spawnProbability : ℚ) (luckFn : String → ℚ)
    (w : World) (cell : GridCell) : Option ℕ :=
  if getKey cell ∈ w.game.collectedSet then none
  else
    match getEntry w.tokens (getKey cell) with
    | some e => some e
    | none =>
      match getEntry w.board (getKey cell) with
      | some m => if m.hasToken = some false then none else some (m.exp.getD 0)
      | none =>
        if luckFn (getKey cell ++ ":spawn") <
            spawnProbability *
              expSpawnMultiplier (expFor maxExp (luckFn (getKey cell ++ ":value"))) then
          some (expFor maxExp (luckFn (getKey cell ++ ":value")))
        else none

/-- The state effect of TokenManager.trySpawnCell: when a token is shown
for a cell that had no cached entry, it is registered in the tokensMap. -/
def trySpawnCellOp (maxExp : ℕ) (spawnProbability : ℚ) (luckFn : String → ℚ)
    (w : World) (cell : GridCell) : World :=
  if getKey cell ∈ w.game.collectedSet then w
  else
    match getEntry w.tokens (getKey cell) with
    | some _ => w
    | none =>
      match getEntry w.board (getKey cell) with
      | some m =>
        if m.hasToken = some false then w
        else { w with tokens := setEntry w.tokens (getKey cell) (m.exp.getD 0) }
      | none =>
        if luckFn (getKey cell ++ ":spawn") <
            spawnProbability *
              expSpawnMultiplier (expFor maxExp (luckFn (getKey cell ++ ":value"))) then
          { w with
            tokens := setEntry w.tokens (getKey cell)
              (expFor maxExp (luckFn (getKey cell ++ ":value"))) }
        else w

/-- The session operations a play session is a sequence of: click
interactions, resolution of a visible cell, the GameStateManager
mutators, and the full reset. -/
inductive SessionOp where
  | click (playerCell cell : GridCell) (exp : ℕ)
  | resolve (cell : GridCell)
  | collectTok (t : Token)
  | upgrade
  | release
  | reset
deriving DecidableEq, Repr

/-- Apply one session operation to the world. -/
def applyOp (maxExp proximityRadius : ℕ) (spawnProbability : ℚ)
    (luckFn : String → ℚ) (w : World) : SessionOp → World
  | SessionOp.click p c exp => (clickCell maxExp proximityRadius w p c exp).2
  | SessionOp.resolve c => trySpawnCellOp maxExp spawnProbability luckFn w c
  | SessionOp.collectTok t => { w with game := collectToken (winValue maxExp) t w.game }
  | SessionOp.upgrade => { w with game := upgradeHeldToken (winValue maxExp) w.game }
  | SessionOp.release => { w with game := clearHeldToken w.game }
  | SessionOp.reset => initialWorld

/-- Apply a sequence of session operations from left to right. -/
def applyOps (maxExp proximityRadius : ℕ) (spawnProbability : ℚ)
    (luckFn : String → ℚ) (w : World) : List SessionOp → World
  | [] => w
  | op :: ops =>
    applyOps maxExp proximityRadius spawnProbability luckFn
      (applyOp maxExp proximityRadius spawnProbability luckFn w op) ops

/- ===================================================================
   Helper lemmas about the state operations.
   =================================================================== -/

theorem checkWinCondition_heldToken (v : ℕ) (s : GameState) :
    (checkWinCondition v s).heldToken = s.heldToken := by
  unfold checkWinCondition
  split
  · split <;> rfl
  · rfl

theorem checkWinCondition_collectedSet (v : ℕ) (s : GameState) :
    (checkWinCondition v s).collectedSet = s.collectedSet := by
  unfold checkWinCondition
  split
  · split <;> rfl
  · rfl

theorem checkWinCondition_hasWon_true {s : GameState} (v : ℕ)
    (h : s.hasWon = true) : (checkWinCondition v s).hasWon = true := by
  unfold checkWinCondition
  split
  · split
    · rfl
    · exact h
  · exact h

theorem getEntry_setEntry {α : Type} (l : List (String × α)) (k k0 : String)
    (v : α) :
    getEntry (setEntry l k v) k0 = if k = k0 then some v else getEntry l k0 := by
  induction l with
  | nil => rfl
  | cons hd rest ih =>
    obtain ⟨k', v'⟩ := hd
    by_cases hk : k' = k
    · subst hk
      simp only [setEntry, if_pos rfl, getEntry]
      by_cases h0 : k' = k0
      · subst h0; simp
      · simp [h0]
    · simp only [setEntry, if_neg hk, getEntry]
      by_cases h0 : k' = k0
      · subst h0
        have : k ≠ k' := fun h => hk h.symm
        simp [this]
      · simp [h0, ih]

theorem getEntry_setEntry_self {α : Type} (l : List (String × α))
    (k : String) (v : α) : getEntry (setEntry l k v) k = some v := by
  rw [getEntry_setEntry]
  simp

theorem isSome_getEntry_setEntry {α : Type} {l : List (String × α)}
    {k0 : String} (k : String) (v : α)
    (h : (getEntry l k0).isSome = true) :
    (getEntry (setEntry l k v) k0).isSome = true := by
  rw [getEntry_setEntry]
  split
  · rfl
  · exact h

theorem trySpawnCellOp_game (maxExp : ℕ) (p : ℚ) (f : String → ℚ)
    (w : World) (c : GridCell) :
    (trySpawnCellOp maxExp p f w c).game = w.game := by
  unfold trySpawnCellOp
  split
  · rfl
  · split
    · rfl
    · split
      · split <;> rfl
      · split <;> rfl

theorem trySpawnCellOp_board (maxExp : ℕ) (p : ℚ) (f : String → ℚ)
    (w : World) (c : GridCell) :
    (trySpawnCellOp maxExp p f w c).board = w.board := by
  unfold trySpawnCellOp
  split
  · rfl
  · split
    · rfl
    · split
      · split <;> rfl
      · split <;> rfl

theorem clickCell_board_cases (maxExp radius : ℕ) (w : World)
    (p c : GridCell) (exp : ℕ) :
    (clickCell maxExp radius w p c exp).2.board = w.board ∨
      ∃ v, (clickCell maxExp radius w p c exp).2.board =
        setEntry w.board (getKey c) v := by
  unfold clickCell
  split
  · exact Or.inl rfl
  · split
    · split
      · split
        · split
          · exact Or.inr ⟨_, rfl⟩
          · exact Or.inl rfl
        · exact Or.inl rfl
      · exact Or.inr ⟨_, rfl⟩
    · exact Or.inl rfl

theorem clickCell_hasWon_true (maxExp radius : ℕ) (w : World)
    (p c : GridCell) (exp : ℕ) (h : w.game.hasWon = true) :
    clickCell maxExp radius w p c exp = (Outcome.gameWonBlocked, w) := by
  simp [clickCell, h]

/- ===================================================================
   Claim theorems.
   =================================================================== -/

/-- C4: with the win flag down, an interaction attempt on a cell whose
grid distance from the player cell exceeds the proximity radius yields the
TooFar outcome and returns the world exactly unchanged (overlay store,
token cache and session state all untouched), regardless of the
held-token state. -/
theorem tooFar_no_mutation (maxExp radius : ℕ) (w : World) (p c : GridCell)
    (exp : ℕ) (hwon : w.game.hasWon = false)
    (hdist : radius < gridDistance p c) :
    clickCell maxExp radius w p c exp = (Outcome.tooFar, w) := by
  simp [clickCell, hwon, Nat.not_le.mpr hdist]

/-- C6 counterexample: with no held token, the merge-into-held operation
(upgradeHeldToken) completes silently and leaves the state exactly
unchanged -- the source guards the whole body with a null check and has no
throw or assertion path, so the embedded operation is total; it does not
signal any invariant breach. Shown here at the concrete initial state of
the shipped configuration (maximum exponent 8). -/
theorem upgradeHeldToken_none_counterexample :
    initialGameState.heldToken = none ∧
      upgradeHeldToken (winValue 8) initialGameState = initialGameState :=
  ⟨rfl, rfl⟩

/-- C6 amended: attempting the merge-into-held operation with no held
token is a guarded silent no-op: for every win value and every state whose
heldToken is none, upgradeHeldToken returns the state unchanged and raises
no error. -/
theorem upgradeHeldToken_none_noop (v : ℕ) (s : GameState)
    (h : s.heldToken = none) : upgradeHeldToken v s = s := by
  unfold upgradeHeldToken
  rw [h]

/-- C6 amended, witness at a concrete state. -/
theorem upgradeHeldToken_none_noop_witness :
    (⟨none, ["0:0"], false⟩ : GameState).heldToken = none ∧
      upgradeHeldToken (winValue 8) ⟨none, ["0:0"], false⟩ =
        ⟨none, ["0:0"], false⟩ :=
  ⟨rfl, upgradeHeldToken_none_noop (winValue 8) ⟨none, ["0:0"], false⟩ rfl⟩

/-- C10: the state-manager collect operation sets heldToken to the new
token unconditionally -- it requires nothing of the previous heldToken and
silently discards it -- while the interaction engine takes the collect
branch only when no token is held: a click with a held token never
produces the Collect outcome. -/
theorem collectToken_unconditional (maxExp radius v : ℕ) (t : Token)
    (s : GameState) (w : World) (p c : GridCell) (exp : ℕ)
    (hheld : w.game.heldToken.isSome = true) :
    (collectToken v t s).heldToken = some t ∧
      (clickCell maxExp radius w p c exp).1 ≠ Outcome.collect := by
  constructor
  · unfold collectToken
    rw [checkWinCondition_heldToken]
  · cases hh : w.game.heldToken with
    | none => rw [hh] at hheld; exact absurd hheld (by simp)
    | some t0 =>
      simp only [clickCell, hh]
      split
      · simp
      · split
        · split
          · split <;> simp
          · simp
        · simp

/-- C1: after any collect or merge click transition, the win flag is true
exactly when the resulting held token has the maximum exponent: a collect
of a maximum-exponent token raises the flag, a collect of any other token
leaves it down, and a merge (which produces the upgraded token for the
map cell, not for the hands, and releases the held token) leaves it
down. -/
theorem clickCell_winFlag_iff_heldMax (maxExp radius : ℕ) (w : World)
    (p c : GridCell) (exp : ℕ)
    (hout : (clickCell maxExp radius w p c exp).1 = Outcome.collect ∨
      (clickCell maxExp radius w p c exp).1 = Outcome.mergeSuccess) :
    ((clickCell maxExp radius w p c exp).2.game.hasWon = true ↔
      ∃ t, (clickCell maxExp radius w p c exp).2.game.heldToken = some t ∧
        t.exp = maxExp) := by
  by_cases hw : w.game.hasWon = true
  · rw [clickCell_hasWon_true maxExp radius w p c exp hw] at hout
    simp at hout
  · have hw' : w.game.hasWon = false := by
      cases h : w.game.hasWon
      · rfl
      · exact absurd h hw
    by_cases hd : gridDistance p c ≤ radius
    · cases hh : w.game.heldToken with
      | some t =>
        by_cases he : t.exp = exp
        · by_cases hm : exp < maxExp
          · simp only [clickCell, hw', hd, hh, he, hm]
            simp [clearHeldToken, hw']
          · simp [clickCell, hw', hd, hh, he, hm] at hout
        · simp [clickCell, hw', hd, hh, he] at hout
      | none =>
        simp only [clickCell, hw', hd, hh]
        by_cases hpow : 2 ^ exp = winValue maxExp
        · have hexp : exp = maxExp :=
            Nat.pow_right_injective (le_refl 2) hpow
          subst hexp
          simp only [collectToken, checkWinCondition,
            checkWinCondition_heldToken]
          simp [hpow]
        · have hne : exp ≠ maxExp := by
            intro h
            exact hpow (by rw [h]; rfl)
          simp only [collectToken, checkWinCondition,
            checkWinCondition_heldToken]
          simp [hpow, hw', hne]
    · simp [clickCell, hw', hd] at hout

/-- C3: a merge transition -- triggered when the game is not won, the cell
is within proximity, the cell resolves to exponent E, and the player holds
a token of the same exponent E below the maximum -- succeeds, leaves no
held token, writes the Present record with exponent E + 1 for the cell
into the overlay store, and the cell subsequently resolves to exponent
E + 1. -/
theorem merge_transition_spec (maxExp radius : ℕ) (prob : ℚ)
    (f : String → ℚ) (w : World) (p c : GridCell) (t : Token) (E : ℕ)
    (hwon : w.game.hasWon = false) (hdist : gridDistance p c ≤ radius)
    (hheld : w.game.heldToken = some t) (hexp : t.exp = E)
    (hres : resolveCell maxExp prob f w c = some E) (hlt : E < maxExp) :
    (clickCell maxExp radius w p c E).1 = Outcome.mergeSuccess ∧
      (clickCell maxExp radius w p c E).2.game.heldToken = none ∧
      getEntry (clickCell maxExp radius w p c E).2.board (getKey c) =
        some (presentMemento (E + 1)) ∧
      resolveCell maxExp prob f (clickCell maxExp radius w p c E).2 c =
        some (E + 1) := by
  have hkey : getKey c ∉ w.game.collectedSet := by
    intro hk
    rw [resolveCell, if_pos hk] at hres
    exact absurd hres (by simp)
  have hclick : clickCell maxExp radius w p c E =
      (Outcome.mergeSuccess,
        { board := setEntry w.board (getKey c) (presentMemento (E + 1)),
          tokens := setEntry w.tokens (getKey c) (E + 1),
          game := clearHeldToken w.game }) := by
    simp [clickCell, hwon, hdist, hheld, hexp, hlt]
  rw [hclick]
  refine ⟨rfl, rfl, getEntry_setEntry_self _ _ _, ?_⟩
  rw [resolveCell]
  simp only [clearHeldToken]
  rw [if_neg hkey, getEntry_setEntry_self]

/- Per-operation monotonicity of the win flag. -/

theorem applyOp_hasWon_true (maxExp radius : ℕ) (prob : ℚ)
    (f : String → ℚ) (w : World) (op : SessionOp)
    (hop : op ≠ SessionOp.reset) (hw : w.game.hasWon = true) :
    (applyOp maxExp radius prob f w op).game.hasWon = true := by
  cases op with
  | click p c exp =>
    show (clickCell maxExp radius w p c exp).2.game.hasWon = true
    rw [clickCell_hasWon_true maxExp radius w p c exp hw]
    exact hw
  | resolve c =>
    show (trySpawnCellOp maxExp prob f w c).game.hasWon = true
    rw [trySpawnCellOp_game]
    exact hw
  | collectTok t =>
    show (collectToken (winValue maxExp) t w.game).hasWon = true
    exact checkWinCondition_hasWon_true _ hw
  | upgrade =>
    show (upgradeHeldToken (winValue maxExp) w.game).hasWon = true
    unfold upgradeHeldToken
    split
    · exact checkWinCondition_hasWon_true _ hw
    · exact hw
  | release => exact hw
  | reset => exact absurd rfl hop

/-- C2: the win flag is monotone within a session: once hasWon is true, no
sequence of session operations that does not contain the full reset (click
interactions covering collect and merge, cell resolutions, and the
collect, upgrade and release state mutators) ever takes it back to
false. -/
theorem hasWon_monotone (maxExp radius : ℕ) (prob : ℚ) (f : String → ℚ)
    (ops : List SessionOp) (w : World) (hw : w.game.hasWon = true)
    (hno : SessionOp.reset ∉ ops) :
    (applyOps maxExp radius prob f w ops).game.hasWon = true := by
  induction ops generalizing w with
  | nil => exact hw
  | cons op ops ih =>
    have hop : op ≠ SessionOp.reset := by
      intro h
      exact hno (h ▸ List.mem_cons_self op ops)
    have hno' : SessionOp.reset ∉ ops := fun h => hno (List.mem_cons_of_mem _ h)
    exact ih _ (applyOp_hasWon_true maxExp radius prob f w op hop hw) hno'

/- Preservation of an overlay record, and generator independence of the
read path once a record exists. -/

theorem applyOp_board_isSome (maxExp radius : ℕ) (prob : ℚ)
    (f : String → ℚ) (w : World) (op : SessionOp) (key : String)
    (hop : op ≠ SessionOp.reset)
    (h : (getEntry w.board key).isSome = true) :
    (getEntry (applyOp maxExp radius prob f w op).board key).isSome = true := by
  cases op with
  | click p c exp =>
    rcases clickCell_board_cases maxExp radius w p c exp with hb | ⟨v, hb⟩
    · show (getEntry (clickCell maxExp radius w p c exp).2.board key).isSome = true
      rw [hb]; exact h
    · show (getEntry (clickCell maxExp radius w p c exp).2.board key).isSome = true
      rw [hb]; exact isSome_getEntry_setEntry _ _ h
  | resolve c =>
    show (getEntry (trySpawnCellOp maxExp prob f w c).board key).isSome = true
    rw [trySpawnCellOp_board]; exact h
  | collectTok t => exact h
  | upgrade => exact h
  | release => exact h
  | reset => exact absurd rfl hop

theorem applyOps_board_isSome (maxExp radius : ℕ) (prob : ℚ)
    (f : String → ℚ) (ops : List SessionOp) (w : World) (key : String)
    (hno : SessionOp.reset ∉ ops)
    (h : (getEntry w.board key).isSome = true) :
    (getEntry (applyOps maxExp radius prob f w ops).board key).isSome = true := by
  induction ops generalizing w with
  | nil => exact h
  | cons op ops ih =>
    have hop : op ≠ SessionOp.reset := by
      intro heq
      exact hno (heq ▸ List.mem_cons_self op ops)
    have hno' : SessionOp.reset ∉ ops := fun hm => hno (List.mem_cons_of_mem _ hm)
    exact ih _ hno' (applyOp_board_isSome maxExp radius prob f w op key hop h)

theorem resolveCell_generator_indep (maxExp : ℕ) (prob : ℚ)
    (f g : String → ℚ) (w : World) (c : GridCell)
    (hb : (getEntry w.board (getKey c)).isSome = true) :
    resolveCell maxExp prob f w c = resolveCell maxExp prob g w c := by
  unfold resolveCell
  by_cases hc : getKey c ∈ w.game.collectedSet
  · rw [if_pos hc, if_pos hc]
  · rw [if_neg hc, if_neg hc]
    cases ht : getEntry w.tokens (getKey c) with
    | some e => rfl
    | none =>
      cases hbm : getEntry w.board (getKey c) with
      | some m => rfl
      | none => rw [hbm] at hb; exact absurd hb (by simp)

/-- C5: once an overlay record (Suppressed or Present) is committed for a
cell key, every subsequent resolution of that cell -- across any sequence
of session operations that does not contain the full reset -- is
independent of the deterministic generator: the luck function is never
consulted for that cell again, so resolving with any two generator
functions gives the same answer. -/
theorem overlay_permanence (maxExp radius : ℕ) (prob : ℚ)
    (f g h : String → ℚ) (ops : List SessionOp) (w : World) (c : GridCell)
    (hno : SessionOp.reset ∉ ops)
    (hb : (getEntry w.board (getKey c)).isSome = true) :
    resolveCell maxExp prob f (applyOps maxExp radius prob h w ops) c =
      resolveCell maxExp prob g (applyOps maxExp radius prob h w ops) c :=
  resolveCell_generator_indep maxExp prob f g _ c
    (applyOps_board_isSome maxExp radius prob h ops w (getKey c) hno hb)

/- ===================================================================
   Persistence loading: GameStateManager.loadFromLocalStorage and
   BoardState.loadFromLocalStorage.
   =================================================================== -/

/-- The result of JSON.parse on a stored game-state document after the
field extractions of loadFromLocalStorage (heldToken with null default,
collectedSet with empty default, hasWon with false default). -/
structure ParsedGameDoc where
  heldToken : Option Token
  collectedSet : List String
  hasWon : Bool

/-- GameStateManager.loadFromLocalStorage: the stored item may be absent
(getItem null); JSON.parse may throw, modelled by the parse function
returning none, in which case the catch leaves the fields at their
initializers; otherwise the parsed fields are assigned. -/
def loadGameState (stored : Option String)
    (parse : String → Option ParsedGameDoc) : GameState :=
  match stored with
  | none => initialGameState
  | some s =>
    match parse s with
    | none => initialGameState
    | some d => ⟨d.heldToken, d.collectedSet, d.hasWon⟩

/-- BoardState.loadFromLocalStorage: absent or unparseable stored items
leave the memento map at its initializer (empty). -/
def loadBoardState (stored : Option String)
    (parse : String → Option (List (String × Memento))) :
    List (String × Memento) :=
  match stored with
  | none => []
  | some s =>
    match parse s with
    | none => []
    | some l => l

/-- C7: for both persisted documents, an absent or unparseable stored
item loads as the empty initial state -- no held token, empty collected
set, win flag down, empty overlay -- and loading is a total function, so
no fatal error is possible. -/
theorem load_absent_or_malformed_initial
    (pg : String → Option ParsedGameDoc)
    (pb : String → Option (List (String × Memento))) (s : String)
    (hg : pg s = none) (hb : pb s = none) :
    loadGameState none pg = initialGameState ∧
      loadGameState (some s) pg = initialGameState ∧
      loadBoardState none pb = [] ∧
      loadBoardState (some s) pb = [] ∧
      initialGameState.heldToken = none ∧
      initialGameState.collectedSet = [] ∧
      initialGameState.hasWon = false := by
  refine ⟨rfl, ?_, rfl, ?_, rfl, rfl, rfl⟩
  · rw [loadGameState, hg]
  · rw [loadBoardState, hb]

/- ===================================================================
   Witnesses: each proved claim theorem with a hypothesis applied at a
   concrete input.
   =================================================================== -/

/-- C1 witness: collecting a maximum-exponent token at the player cell
from the fresh world raises the win flag, concretely at the shipped
configuration. -/
theorem clickCell_winFlag_iff_heldMax_witness :
    ((clickCell 8 6 initialWorld ⟨0, 0⟩ ⟨0, 0⟩ 8).1 = Outcome.collect ∨
        (clickCell 8 6 initialWorld ⟨0, 0⟩ ⟨0, 0⟩ 8).1 = Outcome.mergeSuccess) ∧
      ((clickCell 8 6 initialWorld ⟨0, 0⟩ ⟨0, 0⟩ 8).2.game.hasWon = true ↔
        ∃ t, (clickCell 8 6 initialWorld ⟨0, 0⟩ ⟨0, 0⟩ 8).2.game.heldToken =
            some t ∧ t.exp = 8) :=
  ⟨Or.inl rfl,
    clickCell_winFlag_iff_heldMax 8 6 initialWorld ⟨0, 0⟩ ⟨0, 0⟩ 8 (Or.inl rfl)⟩

/-- C2 witness: a concrete won state stays won across a release. -/
theorem hasWon_monotone_witness :
    ((⟨[], [], ⟨none, [], true⟩⟩ : World).game.hasWon = true ∧
        SessionOp.reset ∉ [SessionOp.release]) ∧
      (applyOps 8 6 0 (fun _ => 0) ⟨[], [], ⟨none, [], true⟩⟩
          [SessionOp.release]).game.hasWon = true :=
  ⟨⟨rfl, by decide⟩,
    hasWon_monotone 8 6 0 (fun _ => 0) [SessionOp.release]
      ⟨[], [], ⟨none, [], true⟩⟩ rfl (by decide)⟩

/-- C3 witness: a concrete merge of two exponent-2 tokens at the player
cell. -/
theorem merge_transition_spec_witness :
    ((⟨[], [("0:0", 2)], ⟨some ⟨"5:5", 2⟩, [], false⟩⟩ : World).game.hasWon = false ∧
        gridDistance ⟨0, 0⟩ ⟨0, 0⟩ ≤ 6 ∧
        (⟨[], [("0:0", 2)], ⟨some ⟨"5:5", 2⟩, [], false⟩⟩ : World).game.heldToken =
          some ⟨"5:5", 2⟩ ∧
        (⟨"5:5", 2⟩ : Token).exp = 2 ∧
        resolveCell 8 0 (fun _ => 0)
            ⟨[], [("0:0", 2)], ⟨some ⟨"5:5", 2⟩, [], false⟩⟩ ⟨0, 0⟩ = some 2 ∧
        2 < 8) ∧
      ((clickCell 8 6 ⟨[], [("0:0", 2)], ⟨some ⟨"5:5", 2⟩, [], false⟩⟩
            ⟨0, 0⟩ ⟨0, 0⟩ 2).1 = Outcome.mergeSuccess ∧
        (clickCell 8 6 ⟨[], [("0:0", 2)], ⟨some ⟨"5:5", 2⟩, [], false⟩⟩
            ⟨0, 0⟩ ⟨0, 0⟩ 2).2.game.heldToken = none ∧
        getEntry (clickCell 8 6 ⟨[], [("0:0", 2)], ⟨some ⟨"5:5", 2⟩, [], false⟩⟩
            ⟨0, 0⟩ ⟨0, 0⟩ 2).2.board (getKey ⟨0, 0⟩) = some (presentMemento (2 + 1)) ∧
        resolveCell 8 0 (fun _ => 0)
            (clickCell 8 6 ⟨[], [("0:0", 2)], ⟨some ⟨"5:5", 2⟩, [], false⟩⟩
              ⟨0, 0⟩ ⟨0, 0⟩ 2).2 ⟨0, 0⟩ = some (2 + 1)) :=
  ⟨⟨rfl, by decide, rfl, rfl, by decide, by decide⟩,
    merge_transition_spec 8 6 0 (fun _ => 0)
      ⟨[], [("0:0", 2)], ⟨some ⟨"5:5", 2⟩, [], false⟩⟩ ⟨0, 0⟩ ⟨0, 0⟩
      ⟨"5:5", 2⟩ 2 rfl (by decide) rfl rfl (by decide) (by decide)⟩

/-- C4 witness: clicking a cell nine grid spaces away from the fresh
world changes nothing. -/
theorem tooFar_no_mutation_witness :
    (initialWorld.game.hasWon = false ∧ 6 < gridDistance ⟨0, 0⟩ ⟨9, 0⟩) ∧
      clickCell 8 6 initialWorld ⟨0, 0⟩ ⟨9, 0⟩ 1 = (Outcome.tooFar, initialWorld) :=
  ⟨⟨rfl, by decide⟩,
    tooFar_no_mutation 8 6 initialWorld ⟨0, 0⟩ ⟨9, 0⟩ 1 rfl (by decide)⟩

/-- C5 witness: a concretely suppressed cell resolves identically under
two different generator functions after a release operation. -/
theorem overlay_permanence_witness :
    (SessionOp.reset ∉ [SessionOp.release] ∧
        (getEntry (⟨[("0:0", suppressedMemento)], [], initialGameState⟩ : World).board
            (getKey ⟨0, 0⟩)).isSome = true) ∧
      resolveCell 8 0 (fun _ => 0)
          (applyOps 8 6 0 (fun _ => 0)
            ⟨[("0:0", suppressedMemento)], [], initialGameState⟩
            [SessionOp.release]) ⟨0, 0⟩ =
        resolveCell 8 0 (fun _ => 1)
          (applyOps 8 6 0 (fun _ => 0)
            ⟨[("0:0", suppressedMemento)], [], initialGameState⟩
            [SessionOp.release]) ⟨0, 0⟩ :=
  ⟨⟨by decide, by decide⟩,
    overlay_permanence 8 6 0 (fun _ => 0) (fun _ => 1) (fun _ => 0)
      [SessionOp.release] ⟨[("0:0", suppressedMemento)], [], initialGameState⟩
      ⟨0, 0⟩ (by decide) (by decide)⟩

/-- C7 witness: a concrete always-failing parse pair loads as the empty
initial state. -/
theorem load_absent_or_malformed_initial_witness :
    (((fun _ : String => (none : Option ParsedGameDoc)) "x" = none) ∧
        ((fun _ : String => (none : Option (List (String × Memento)))) "x" = none)) ∧
      (loadGameState none (fun _ => none) = initialGameState ∧
        loadGameState (some "x") (fun _ => none) = initialGameState ∧
        loadBoardState none (fun _ => none) = [] ∧
        loadBoardState (some "x") (fun _ => none) = [] ∧
        initialGameState.heldToken = none ∧
        initialGameState.collectedSet = [] ∧
        initialGameState.hasWon = false) :=
  ⟨⟨rfl, rfl⟩,
    load_absent_or_malformed_initial (fun _ => none) (fun _ => none) "x" rfl rfl⟩

/-- C8 witness: the selection at u = v = 0 with the configuration of the
earlier iteration (maximum exponent 4). -/
theorem expFor_spec_witness :
    ((0 : ℚ) ≤ 0 ∧ (0 : ℚ) ≤ 0 ∧ (0 : ℚ) < 1) ∧
      ((findFirst (fun e => decide ((0 : ℚ) < expDistribution 4 e)) (4 + 1) 0).isSome = true ∧
        expFor 4 0 ≤ 4 ∧ expFor 4 0 ≤ 4 ∧ expFor 4 0 ≤ expFor 4 0 ∧
        expDistribution 4 4 = 1) :=
  ⟨⟨le_refl 0, le_refl 0, zero_lt_one⟩,
    expFor_spec 4 0 0 (le_refl 0) (le_refl 0) zero_lt_one⟩

/-- C10 witness: collecting over an already-held token replaces it, and a
click while holding never yields the Collect outcome, concretely. -/
theorem collectToken_unconditional_witness :
    ((⟨[], [], ⟨some ⟨"2:2", 5⟩, [], false⟩⟩ : World).game.heldToken.isSome = true) ∧
      ((collectToken 256 ⟨"1:1", 3⟩ ⟨some ⟨"2:2", 5⟩, [], false⟩).heldToken =
          some ⟨"1:1", 3⟩ ∧
        (clickCell 8 6 ⟨[], [], ⟨some ⟨"2:2", 5⟩, [], false⟩⟩
            ⟨0, 0⟩ ⟨0, 0⟩ 3).1 ≠ Outcome.collect) :=
  ⟨rfl,
    collectToken_unconditional 8 6 256 ⟨"1:1", 3⟩ ⟨some ⟨"2:2", 5⟩, [], false⟩
      ⟨[], [], ⟨some ⟨"2:2", 5⟩, [], false⟩⟩ ⟨0, 0⟩ ⟨0, 0⟩ 3 rfl⟩

end D3Game
